import Mathlib

/-
Verification of the FS-Nav alias-table core (fsnav/core.py) against its
natural-language specification.

The embedding is shallow: the `Aliases` dict subclass becomes an association
list with unique keys, `__setitem__` becomes `setitem` returning `Except`,
and the filesystem queries performed by the code (`os.path.isdir`,
`os.access(path, X_OK)`, `os.path.exists`, `glob.glob`, the home directory
used by `os.path.expanduser`) become fields of an abstract `FS` structure,
so theorems quantify over all filesystem states.

Python exception mapping (per the specification, section 7):
  `ValueError` raised by `__setitem__`  -> `Err.invalidPath`  (InvalidPathError)
  `KeyError` raised by `__setitem__`    -> `Err.invalidAlias` (InvalidAliasError)
  `KeyError` raised by `dict.__getitem__` -> `Err.keyNotFound` (KeyNotFoundError)
-/

namespace FSNav

/-- Abstract filesystem state: the queries `core.py` makes during validation
and counting.  `isdir` is `os.path.isdir`, `accessX` is
`os.access(path, os.X_OK)`, `pexists` is `os.path.exists`, `globFn` is
`glob.glob`, and `home` is the resolved home directory used by
`os.path.expanduser`. -/
structure FS where
  isdir : String → Bool
  accessX : String → Bool
  pexists : String → Bool
  globFn : String → List String
  home : String

/-- Embedding of `os.path.expanduser`, restricted to the leading home-directory shorthand
the specification describes: a path that is exactly `~` or starts with `~/`
has the tilde replaced by the home directory; anything else is returned
unchanged. -/
def expanduser (home path : String) : String :=
  match path.data with
  | ['~'] => home
  | '~' :: '/' :: rest => home ++ ⟨'/' :: rest⟩
  | _ => path

/-- Modelled from the spec: `fsnav.settings.ALIAS_REGEX` is not under `src/`.
The specification fixes the alias naming pattern as one or more characters
from `[A-Za-z0-9_-]`; this is the character test. -/
def allowedChar (c : Char) : Bool :=
  c.isAlpha || c.isDigit || c = '_' || c = '-'

/-- Modelled from the spec: validity of an alias under
`re.match(settings.ALIAS_REGEX, alias)`, i.e. the alias is nonempty and
every character is in `[A-Za-z0-9_-]`. -/
def validAlias (a : String) : Bool :=
  !a.data.isEmpty && a.data.all allowedChar

/-- The alias table: a finite map alias -> path, embedded as an association
list in insertion order (Python dicts preserve insertion order and keep a
replaced key at its original position). -/
abbrev Aliases := List (String × String)

/-- Caller-visible failure kinds of the core (specification section 7). -/
inductive Err where
  | invalidPath (msg : String) : Err
  | invalidAlias (msg : String) : Err
  | keyNotFound (key : String) : Err
  deriving DecidableEq, Repr

/-- Message of the `ValueError` raised for a null path (`core.py` line 105). -/
def nonePathMsg : String := "Path cannot be NoneType"

/-- Message of the `KeyError` raised for an invalid alias (`core.py` line 110). -/
def invalidAliasMsg (a : String) : String :=
  ("Aliases can only contain alphanumeric characters and - or _: ") ++ a

/-- Message of the `ValueError` raised for an inaccessible path (`core.py` line 112). -/
def badPathMsg (p : String) : String := ("Cant access path: ") ++ p

/-- Python-dict lookup on the association list. -/
def lookupA (t : Aliases) (a : String) : Option String :=
  match t with
  | [] => none
  | (k, v) :: rest => if k = a then some v else lookupA rest a

/-- Raw `dict.__setitem__`: replace the value of an existing key in place,
otherwise append the new binding. -/
def insertAssoc (t : Aliases) (a p : String) : Aliases :=
  match t with
  | [] => [(a, p)]
  | (k, v) :: rest => if k = a then (a, p) :: rest else (k, v) :: insertAssoc rest a p

namespace Aliases

/-- Embedding of `Aliases.__setitem__` (`core.py` lines 104-116): reject a null path,
expand the user shorthand, validate the alias against the naming pattern,
then validate the path — the code raises only when the expanded path is
neither a directory nor accessible (`not os.path.isdir(path) and not
os.access(path, os.X_OK)`) — and finally store the binding. -/
def setitem (fs : FS) (t : Aliases) (a : String) (path : Option String) :
    Except Err Aliases :=
  match path with
  | none => .error (.invalidPath nonePathMsg)
  | some p0 =>
    let p := expanduser fs.home p0
    if !validAlias a then
      .error (.invalidAlias (invalidAliasMsg a))
    else if !fs.isdir p && !fs.accessX p then
      .error (.invalidPath (badPathMsg p))
    else
      .ok (insertAssoc t a p)

/-- State-passing view of `setitem`: a raised exception leaves the Python
object unchanged, so the error branch returns the input table. -/
def setitemRun (fs : FS) (t : Aliases) (a : String) (path : Option String) :
    Aliases × Option Err :=
  match setitem fs t a path with
  | .ok t2 => (t2, none)
  | .error e => (t, some e)

/-- Embedding of `dict.__getitem__` (not overridden): lookup, `KeyError` when absent. -/
def getitem (t : Aliases) (a : String) : Except Err String :=
  match lookupA t a with
  | some p => .ok p
  | none => .error (.keyNotFound a)

/-- Embedding of `Aliases.setdefault` (`core.py` lines 131-146): `try: self[alias]
except KeyError: self[alias] = path` then `return self[alias]`.  Only the
`KeyError` of the guarded lookup is caught; an error raised by the insertion
inside the handler propagates. -/
def setdefault (fs : FS) (t : Aliases) (a : String) (path : Option String) :
    Except Err (Aliases × String) :=
  match getitem t a with
  | .ok _ =>
    match getitem t a with
    | .ok p => .ok (t, p)
    | .error e => .error e
  | .error (.keyNotFound _) =>
    match setitem fs t a path with
    | .error e => .error e
    | .ok t2 =>
      match getitem t2 a with
      | .ok p => .ok (t2, p)
      | .error e => .error e
  | .error e => .error e

/-- Call of `Aliases.setdefault` with the `path` argument omitted: the Python
signature is `setdefault(self, alias, path=None)`, so the omitted argument
is the null value. -/
def setdefaultNoPath (fs : FS) (t : Aliases) (a : String) :
    Except Err (Aliases × String) :=
  setdefault fs t a none

/-- State-passing view of `setdefault`: on error the table is unchanged. -/
def setdefaultRun (fs : FS) (t : Aliases) (a : String) (path : Option String) :
    Aliases × Option Err :=
  match setdefault fs t a path with
  | .ok (t2, _) => (t2, none)
  | .error e => (t, some e)

/-- One pass of `Aliases.update`: insert the entries in order via `setitem`;
the first failure stops the pass and leaves the commits of the earlier
entries in place (the Python exception propagates with no rollback). -/
def updateList (fs : FS) (t : Aliases) (entries : List (String × Option String)) :
    Aliases × Option Err :=
  match entries with
  | [] => (t, none)
  | (a, p) :: rest =>
    match setitem fs t a p with
    | .error e => (t, some e)
    | .ok t2 => updateList fs t2 rest

/-- Embedding of `Aliases.update` (`core.py` lines 148-165): the optional
mapping-or-sequence argument is processed first (both become an ordered list
of pairs in the embedding), then the keyword bindings; every entry goes
through `setitem`, and a failure in the first group prevents the keyword
group from being processed, exactly as one concatenated pass. -/
def update (fs : FS) (t : Aliases)
    (alias_iterable : Option (List (String × Option String)))
    (alias_path : List (String × Option String)) : Aliases × Option Err :=
  updateList fs t ((match alias_iterable with | none => [] | some l => l) ++ alias_path)

/-- Embedding of `Aliases.as_dict`: the plain snapshot of the bindings. -/
def as_dict (t : Aliases) : Aliases := t

/-- Embedding of `Aliases.copy` (`core.py` lines 167-177): `Aliases(**self.as_dict())`
re-inserts every binding, in order, through `setitem` into a fresh table. -/
def copy (fs : FS) (t : Aliases) : Aliases × Option Err :=
  updateList fs [] (t.map (fun ap => (ap.1, some ap.2)))

/-- Embedding of `Aliases.user_defined` (`core.py` lines 179-197): the sub-table of
bindings whose alias is not a default name, rebuilt through the validating
constructor.  `dflt` is the membership test of `settings.DEFAULT_ALIASES`
(modelled from the spec: the default-alias-name set is supplied externally
and its concrete contents are not under `src/`). -/
def user_defined (fs : FS) (dflt : String → Bool) (t : Aliases) :
    Aliases × Option Err :=
  updateList fs [] ((t.filter (fun ap => !dflt ap.1)).map (fun ap => (ap.1, some ap.2)))

/-- Embedding of `Aliases.default` (`core.py` lines 199-205): the sub-table of bindings
whose alias is a default name, rebuilt through the validating constructor. -/
def default (fs : FS) (dflt : String → Bool) (t : Aliases) :
    Aliases × Option Err :=
  updateList fs [] ((t.filter (fun ap => dflt ap.1)).map (fun ap => (ap.1, some ap.2)))

end Aliases

/-- A stored binding that would pass `setitem` validation unchanged: valid
alias, path a directory or accessible, and the path already a fixpoint of
user expansion (stored paths are post-expansion). -/
def entryOK (fs : FS) (ap : String × String) : Bool :=
  validAlias ap.1 && (fs.isdir ap.2 || fs.accessX ap.2) &&
    decide (expanduser fs.home ap.2 = ap.2)

/-- Well-formed table: unique aliases and every stored binding would pass
re-validation unchanged.  Every table built through `setitem` alone on a
fixed filesystem satisfies this. -/
def WF (fs : FS) (t : Aliases) : Prop :=
  (t.map Prod.fst).Nodup ∧ ∀ ap ∈ t, entryOK fs ap = true

instance (fs : FS) (t : Aliases) : Decidable (WF fs t) :=
  inferInstanceAs (Decidable ((t.map Prod.fst).Nodup ∧ ∀ ap ∈ t, entryOK fs ap = true))

/-- The expansion loop of `count` (`core.py` lines 221-226): for each item,
expand the user shorthand when a tilde occurs anywhere in it (the code tests
`if '~' in path`), then expand wildcards with `glob`, collecting all
results. -/
def expandAll (fs : FS) (items_to_count : List String) : List String :=
  items_to_count.flatMap (fun path =>
    fs.globFn (if path.data.contains '~' then expanduser fs.home path else path))

/-- Embedding of `count` (`core.py` lines 208-228): the size of the set of expansion
results that exist on the filesystem
(`len(set([p for p in expanded if os.path.exists(p)]))`). -/
def count (fs : FS) (items_to_count : List String) : Nat :=
  (((expandAll fs items_to_count).filter (fun p => fs.pexists p)).dedup).length

/-- The counting pipeline as the specification words it: collect all
expansion results across all input expressions into one de-duplicated set,
filter to entries that currently exist, and return the count. -/
def countSpec (fs : FS) (items_to_count : List String) : Nat :=
  (((expandAll fs items_to_count).dedup).filter (fun p => fs.pexists p)).length

/-- A path expression free of the glob metacharacters `*`, `?`, `[`
(the characters `glob.has_magic` looks for). -/
def noMeta (s : String) : Bool :=
  !(s.data.contains '*' || s.data.contains '?' || s.data.contains '[')

/-- Mutable-store model for aliasing questions: Python `Aliases` objects are
references to mutable dicts, so `copy` allocates a fresh object. -/
structure Store where
  mem : Nat → Aliases
  next : Nat

/-- Read the table held by a reference. -/
def readRef (s : Store) (r : Nat) : Aliases := s.mem r

/-- Overwrite the table held by a reference. -/
def writeRef (s : Store) (r : Nat) (t : Aliases) : Store :=
  ⟨fun i => if i = r then t else s.mem i, s.next⟩

/-- Allocate a fresh reference holding `t`. -/
def allocRef (s : Store) (t : Aliases) : Store × Nat :=
  (⟨fun i => if i = s.next then t else s.mem i, s.next + 1⟩, s.next)

/-- Operation `aliases.copy()` on an object: build the copied table and bind it to a
fresh object; the validation outcome is reported alongside. -/
def copyRef (fs : FS) (s : Store) (r : Nat) : Store × Nat × Option Err :=
  let te := Aliases.copy fs (readRef s r)
  let sr := allocRef s te.1
  (sr.1, sr.2, te.2)

/-- Operation `aliases[alias] = path` on an object: mutate the table it holds. -/
def setitemRef (fs : FS) (s : Store) (r : Nat) (a : String) (p : Option String) :
    Store × Option Err :=
  let te := Aliases.setitemRun fs (readRef s r) a p
  (writeRef s r te.1, te.2)

/-- A store with no objects. -/
def emptyStore : Store := ⟨fun _ => [], 0⟩

/-- Concrete directory predicate for witness filesystems: `/d`, `/home/u/`
and `/existing` are directories, and `/locked` is a directory as well. -/
def isdirFix (s : String) : Bool :=
  decide (s = ("/d")) || decide (s = ("/home/u/")) ||
    decide (s = ("/existing")) || decide (s = ("/locked"))

/-- Concrete accessibility predicate for witness filesystems: only `/d` and
`/home/u/` carry execute permission; in particular the directory `/locked`
is not accessible. -/
def accessFix (s : String) : Bool :=
  decide (s = ("/d")) || decide (s = ("/home/u/"))

/-- Concrete existence predicate for witness filesystems. -/
def pexistsFix (s : String) : Bool :=
  decide (s = ("/e")) || decide (s = ("/d"))

/-- Concrete witness filesystem.  Its glob returns a literal name exactly
when that name exists, matching `glob.glob` on metacharacter-free input. -/
def fsFix : FS :=
  ⟨isdirFix, accessFix, pexistsFix,
    fun s => if pexistsFix s then [s] else [], ("/home/u")⟩

/-- Concrete witness table: one valid binding. -/
def tFix : Aliases := [(("a"), ("/d"))]

/-- Concrete witness store holding `tFix` at reference 0. -/
def storeFix : Store := (allocRef emptyStore tFix).1

/-- Concrete default-alias-name membership test for witnesses. -/
def dfltFix (s : String) : Bool := decide (s = ("a"))

/- ------------------------------------------------------------------ -/
/- Helper lemmas                                                      -/
/- ------------------------------------------------------------------ -/

/-- Looking up the key just written by the raw dict insertion finds the
written value. -/
theorem lookupA_insertAssoc_self (t : Aliases) (a p : String) :
    lookupA (insertAssoc t a p) a = some p := by
  induction t with
  | nil => simp [insertAssoc, lookupA]
  | cons kv rest ih =>
    obtain ⟨k, v⟩ := kv
    by_cases h : k = a
    · simp [insertAssoc, h, lookupA]
    · simp [insertAssoc, h, lookupA, ih]

/-- Inserting a fresh key appends the binding at the end. -/
theorem insertAssoc_append_of_fresh (t : Aliases) (a p : String)
    (h : a ∉ t.map Prod.fst) :
    insertAssoc t a p = t ++ [(a, p)] := by
  induction t with
  | nil => simp [insertAssoc]
  | cons kv rest ih =>
    obtain ⟨k, v⟩ := kv
    simp only [List.map_cons, List.mem_cons, not_or] at h
    simp [insertAssoc, Ne.symm h.1, ih h.2]

/-- A binding that passes re-validation is stored unchanged by `setitem`. -/
theorem setitem_of_entryOK (fs : FS) (t : Aliases) (a p : String)
    (h : entryOK fs (a, p) = true) :
    Aliases.setitem fs t a (some p) = .ok (insertAssoc t a p) := by
  simp only [entryOK, Bool.and_eq_true, decide_eq_true_eq] at h
  obtain ⟨⟨hv, hd⟩, he⟩ := h
  have hcond : (!fs.isdir p && !fs.accessX p) = false := by
    cases h1 : fs.isdir p <;> cases h2 : fs.accessX p <;> simp_all
  simp [Aliases.setitem, he, hv, hcond]

/-- Re-inserting a list of valid bindings with fresh, pairwise distinct
keys commits all of them in order. -/
theorem updateList_map_ok (fs : FS) :
    ∀ (l t : Aliases), (∀ ap ∈ l, entryOK fs ap = true) →
      (∀ ap ∈ l, ap.1 ∉ t.map Prod.fst) → (l.map Prod.fst).Nodup →
      Aliases.updateList fs t (l.map (fun ap => (ap.1, some ap.2))) = (t ++ l, none) := by
  intro l
  induction l with
  | nil => intro t _ _ _; simp [Aliases.updateList]
  | cons ap rest ih =>
    intro t hok hfresh hnd
    obtain ⟨a, p⟩ := ap
    have h1 : entryOK fs (a, p) = true := hok _ (List.mem_cons_self _ _)
    have hfr : a ∉ t.map Prod.fst := hfresh _ (List.mem_cons_self _ _)
    have hstep : Aliases.setitem fs t a (some p) = .ok (t ++ [(a, p)]) := by
      rw [setitem_of_entryOK fs t a p h1, insertAssoc_append_of_fresh t a p hfr]
    simp only [List.map_cons, Aliases.updateList, hstep]
    have hrest : Aliases.updateList fs (t ++ [(a, p)])
        (rest.map (fun ap => (ap.1, some ap.2))) = ((t ++ [(a, p)]) ++ rest, none) := by
      refine ih (t ++ [(a, p)]) (fun x hx => hok x (List.mem_cons_of_mem _ hx)) ?_ hnd.of_cons
      intro x hx
      have hxk : x.1 ∈ rest.map Prod.fst := List.mem_map_of_mem _ hx
      have hxa : x.1 ≠ a := by
        intro hcontra
        have : a ∉ rest.map Prod.fst := by
          have := hnd
          simp only [List.map_cons, List.nodup_cons] at this
          exact this.1
        exact this (hcontra ▸ hxk)
      simp [not_or, hfresh _ (List.mem_cons_of_mem _ hx), hxa]
    rw [hrest]
    simp

/-- Rebuilding a well-formed table through the validating constructor
reproduces it exactly. -/
theorem copy_of_WF (fs : FS) (t : Aliases) (h : WF fs t) :
    Aliases.copy fs t = (t, none) := by
  simpa [Aliases.copy] using
    updateList_map_ok fs t [] (fun ap hap => h.2 ap hap) (by simp) h.1

/-- Rebuilding any filtered sub-table of a well-formed table through the
validating constructor succeeds and yields exactly the filtered list. -/
theorem filter_build_of_WF (fs : FS) (t : Aliases) (f : String × String → Bool)
    (h : WF fs t) :
    Aliases.updateList fs [] ((t.filter f).map (fun ap => (ap.1, some ap.2))) =
      (t.filter f, none) := by
  have hsub : ∀ ap ∈ t.filter f, ap ∈ t := fun ap hap => (List.mem_filter.mp hap).1
  have hnd : ((t.filter f).map Prod.fst).Nodup := by
    have hsl : List.Sublist ((t.filter f).map Prod.fst) (t.map Prod.fst) :=
      (List.filter_sublist t).map _
    exact List.Nodup.sublist hsl h.1
  simpa using
    updateList_map_ok fs (t.filter f) [] (fun ap hap => h.2 ap (hsub ap hap)) (by simp) hnd

/-- Characterisation of `count` as the cardinality of the set of existing expansion results. -/
theorem count_eq_card (fs : FS) (items : List String) :
    count fs items =
      ((expandAll fs items).filter (fun p => fs.pexists p)).toFinset.card := by
  rw [count, List.card_toFinset]

/-- Characterisation of `countSpec`: it computes the same cardinality. -/
theorem countSpec_eq_card (fs : FS) (items : List String) :
    countSpec fs items =
      ((expandAll fs items).filter (fun p => fs.pexists p)).toFinset.card := by
  have hnd : ((expandAll fs items).dedup.filter (fun p => fs.pexists p)).Nodup :=
    (List.nodup_dedup _).filter _
  rw [countSpec, ← List.Nodup.dedup hnd, ← List.card_toFinset]
  congr 1
  ext x
  simp [List.mem_filter]

/-- Congruence: `count` depends only on the membership of the expansion results. -/
theorem count_congr_mem (fs : FS) (items1 items2 : List String)
    (h : ∀ x, x ∈ expandAll fs items1 ↔ x ∈ expandAll fs items2) :
    count fs items1 = count fs items2 := by
  rw [count_eq_card, count_eq_card]
  congr 1
  ext x
  simp only [List.mem_toFinset, List.mem_filter]
  rw [h x]

/-- One step of the expansion loop. -/
theorem expandAll_cons (fs : FS) (q : String) (items : List String) :
    expandAll fs (q :: items) =
      fs.globFn (if q.data.contains '~' then expanduser fs.home q else q) ++
        expandAll fs items := by
  simp [expandAll]

/-- An `updateList` pass that succeeds on a prefix and then hits a failing
entry stops there, keeping the prefix commits and reporting the error. -/
theorem updateList_append_error (fs : FS) (a : String) (p : Option String) (e : Err)
    (rest : List (String × Option String)) :
    ∀ (pre : List (String × Option String)) (t t1 : Aliases),
      Aliases.updateList fs t pre = (t1, none) →
      Aliases.setitem fs t1 a p = .error e →
      Aliases.updateList fs t (pre ++ (a, p) :: rest) = (t1, some e) := by
  intro pre
  induction pre with
  | nil =>
    intro t t1 h1 h2
    simp only [Aliases.updateList, Prod.mk.injEq] at h1
    obtain ⟨rfl, -⟩ := h1
    simp [Aliases.updateList, h2]
  | cons bq pre' ih =>
    intro t t1 h1 h2
    obtain ⟨b, q⟩ := bq
    rw [List.cons_append]
    simp only [Aliases.updateList] at h1 ⊢
    cases hs : Aliases.setitem fs t b q with
    | error e2 => rw [hs] at h1; simp at h1
    | ok t2 =>
      rw [hs] at h1
      exact ih t2 t1 h1 h2

/- ------------------------------------------------------------------ -/
/- Claim theorems                                                     -/
/- ------------------------------------------------------------------ -/

/-- C1: evaluation of the code at the failing input.  `/locked` is a
directory without traverse/execute permission, so the claim (and the
docstring of `__setitem__`) requires `Insert` to fail with
`InvalidPathError`; the code instead accepts the path and stores the
binding, because line 111 of `core.py` raises only when the path is
neither a directory nor accessible (`not isdir and not access`). -/
theorem setitem_accepts_inaccessible_directory :
    fsFix.isdir ("/locked") = true ∧ fsFix.accessX ("/locked") = false ∧
      Aliases.setitem fsFix [] ("a") (some ("/locked")) =
        .ok ([(("a"), ("/locked"))]) :=
  ⟨by decide, by decide, rfl⟩

/-- C2: for every alias containing a character outside `[A-Za-z0-9_-]` and
every path string, `Insert` fails with `InvalidAliasError` and the table is
unchanged. -/
theorem setitem_invalid_alias (fs : FS) (t : Aliases) (a p : String)
    (h : ∃ c ∈ a.data, allowedChar c = false) :
    Aliases.setitemRun fs t a (some p) =
      (t, some (.invalidAlias (invalidAliasMsg a))) := by
  have hv : validAlias a = false := by
    obtain ⟨c, hc, hcf⟩ := h
    have hall : a.data.all allowedChar = false := by
      cases hall : a.data.all allowedChar
      · rfl
      · exact absurd (List.all_eq_true.mp hall c hc) (by simp [hcf])
    simp [validAlias, hall]
  simp [Aliases.setitemRun, Aliases.setitem, hv]

/-- C2 witness: `Insert("my alias", "/tmp")` fails with `InvalidAliasError`
(space not allowed) on the empty table. -/
theorem setitem_invalid_alias_witness :
    (∃ c ∈ ("my alias").data, allowedChar c = false) ∧
      Aliases.setitemRun fsFix [] ("my alias") (some ("/tmp")) =
        ([], some (.invalidAlias (invalidAliasMsg ("my alias")))) :=
  ⟨by decide, setitem_invalid_alias fsFix [] ("my alias") ("/tmp") (by decide)⟩

/-- C3: for every valid alias and every path whose expansion is an
existing, accessible directory, `Insert` succeeds, and a subsequent lookup
of the alias returns the expanded path (the stored value is the
post-expansion path). -/
theorem setitem_valid_stores_expanded (fs : FS) (t : Aliases) (a p : String)
    (h1 : validAlias a = true)
    (h2 : fs.isdir (expanduser fs.home p) = true)
    (_h3 : fs.accessX (expanduser fs.home p) = true) :
    Aliases.setitem fs t a (some p) =
        .ok (insertAssoc t a (expanduser fs.home p)) ∧
      lookupA (insertAssoc t a (expanduser fs.home p)) a =
        some (expanduser fs.home p) := by
  constructor
  · simp [Aliases.setitem, h1, h2]
  · exact lookupA_insertAssoc_self t a (expanduser fs.home p)

/-- C3 witness: inserting `home -> ~/` stores the resolved home directory
`/home/u/`, and looking `home` up returns it. -/
theorem setitem_valid_stores_expanded_witness :
    (validAlias ("home") = true ∧
      fsFix.isdir (expanduser fsFix.home ("~/")) = true ∧
      fsFix.accessX (expanduser fsFix.home ("~/")) = true) ∧
      (Aliases.setitem fsFix [] ("home") (some ("~/")) =
          .ok (insertAssoc [] ("home") (expanduser fsFix.home ("~/"))) ∧
        lookupA (insertAssoc [] ("home") (expanduser fsFix.home ("~/"))) ("home") =
          some (expanduser fsFix.home ("~/"))) :=
  ⟨⟨by decide, by decide, by decide⟩,
    setitem_valid_stores_expanded fsFix [] ("home") ("~/")
      (by decide) (by decide) (by decide)⟩

/-- C4: for every alias, valid or not, inserting the null path fails with
`InvalidPathError` and leaves the table unchanged — the null-path check
precedes alias validation. -/
theorem setitem_none_path (fs : FS) (t : Aliases) (a : String) :
    Aliases.setitemRun fs t a none = (t, some (.invalidPath nonePathMsg)) := rfl

/-- C5: when the alias is already bound, `setdefault` returns the existing
path, performs no mutation, and never validates the offered path — the
path argument and the filesystem state are arbitrary, including the null
path. -/
theorem setdefault_bound_no_revalidation (fs : FS) (t : Aliases) (a p : String)
    (q : Option String) (h : lookupA t a = some p) :
    Aliases.setdefault fs t a q = .ok (t, p) := by
  simp [Aliases.setdefault, Aliases.getitem, h]

/-- C5 witness: `setdefault("home", "/tmp")` on a table binding `home` to
`/existing` returns `/existing` and the unchanged table, though `/tmp` is
not a valid directory of the witness filesystem. -/
theorem setdefault_bound_no_revalidation_witness :
    lookupA ([(("home"), ("/existing"))]) ("home") = some ("/existing") ∧
      Aliases.setdefault fsFix ([(("home"), ("/existing"))]) ("home")
          (some ("/tmp")) =
        .ok (([(("home"), ("/existing"))]), ("/existing")) :=
  ⟨by decide,
    setdefault_bound_no_revalidation fsFix ([(("home"), ("/existing"))])
      ("home") ("/existing") (some ("/tmp")) (by decide)⟩

/-- C6: for every well-formed table and default-name set, `user_defined`
and `default` succeed and partition the bindings: their union is the whole
table and they are disjoint, each binding routed by membership of its alias
in the default set. -/
theorem user_defined_default_partition (fs : FS) (dflt : String → Bool)
    (t : Aliases) (h : WF fs t) :
    Aliases.user_defined fs dflt t = (t.filter (fun ap => !dflt ap.1), none) ∧
      Aliases.default fs dflt t = (t.filter (fun ap => dflt ap.1), none) ∧
      (∀ x, (x ∈ (Aliases.user_defined fs dflt t).1 ∨
          x ∈ (Aliases.default fs dflt t).1) ↔ x ∈ t) ∧
      (∀ x, ¬(x ∈ (Aliases.user_defined fs dflt t).1 ∧
          x ∈ (Aliases.default fs dflt t).1)) := by
  have hu : Aliases.user_defined fs dflt t =
      (t.filter (fun ap => !dflt ap.1), none) := by
    simpa [Aliases.user_defined] using
      filter_build_of_WF fs t (fun ap => !dflt ap.1) h
  have hd : Aliases.default fs dflt t =
      (t.filter (fun ap => dflt ap.1), none) := by
    simpa [Aliases.default] using
      filter_build_of_WF fs t (fun ap => dflt ap.1) h
  refine ⟨hu, hd, ?_, ?_⟩
  · intro x
    rw [hu, hd]
    simp only [List.mem_filter]
    cases hx : dflt x.1 <;> simp [hx]
  · intro x
    rw [hu, hd]
    simp only [List.mem_filter]
    rintro ⟨⟨-, h1⟩, -, h2⟩
    rw [h2] at h1
    simp at h1

/-- C6 witness: on the one-binding table `tFix` with `a` a default name,
`user_defined` keeps nothing and `default` keeps the binding. -/
theorem user_defined_default_partition_witness :
    WF fsFix tFix ∧
      Aliases.user_defined fsFix dfltFix tFix =
        (tFix.filter (fun ap => !dfltFix ap.1), none) ∧
      Aliases.default fsFix dfltFix tFix =
        (tFix.filter (fun ap => dfltFix ap.1), none) :=
  ⟨by decide,
    (user_defined_default_partition fsFix dfltFix tFix (by decide)).1,
    (user_defined_default_partition fsFix dfltFix tFix (by decide)).2.1⟩

/-- C7: `update` routes every entry through `Insert` in the given order and
is not atomic: when a later entry fails, the commits of the earlier entries
of the same call remain in the table and the error is reported, whether the
failing entry came from the iterable argument or from the keyword group. -/
theorem update_no_rollback (fs : FS) (t t1 : Aliases)
    (pre rest : List (String × Option String)) (a : String) (p : Option String)
    (e : Err)
    (h1 : Aliases.updateList fs t pre = (t1, none))
    (h2 : Aliases.setitem fs t1 a p = .error e) :
    Aliases.update fs t (some (pre ++ (a, p) :: rest)) [] = (t1, some e) ∧
      Aliases.update fs t (some pre) ((a, p) :: rest) = (t1, some e) := by
  constructor
  · simp only [Aliases.update, List.append_nil]
    exact updateList_append_error fs a p e rest pre t t1 h1 h2
  · simp only [Aliases.update]
    exact updateList_append_error fs a p e rest pre t t1 h1 h2

/-- C7 witness: merging `x -> /d`, then a null-path entry for `y`, then
`z -> /d` commits the `x` binding, fails on `y`, and never reaches `z`. -/
theorem update_no_rollback_witness :
    Aliases.updateList fsFix [] ([(("x"), some ("/d"))]) =
        ([(("x"), ("/d"))], none) ∧
      Aliases.setitem fsFix ([(("x"), ("/d"))]) ("y") none =
        .error (.invalidPath nonePathMsg) ∧
      Aliases.update fsFix []
          (some ([(("x"), some ("/d"))] ++ (("y"), none) :: [(("z"), some ("/d"))])) [] =
        ([(("x"), ("/d"))], some (.invalidPath nonePathMsg)) :=
  ⟨rfl, rfl,
    (update_no_rollback fsFix [] ([(("x"), ("/d"))]) ([(("x"), some ("/d"))])
      ([(("z"), some ("/d"))]) ("y") none (.invalidPath nonePathMsg) rfl rfl).1⟩

/-- C8: copying a well-formed table yields a fresh object with the same
bindings, and the two objects are independent: inserting through the copy
leaves the original unchanged and inserting through the original leaves the
copy unchanged. -/
theorem copy_independent (fs : FS) (s : Store) (r : Nat)
    (h1 : r < s.next) (h2 : WF fs (readRef s r)) :
    (copyRef fs s r).2.2 = none ∧
      readRef (copyRef fs s r).1 (copyRef fs s r).2.1 = readRef s r ∧
      (∀ a p, readRef (setitemRef fs (copyRef fs s r).1
          (copyRef fs s r).2.1 a p).1 r = readRef s r) ∧
      (∀ a p, readRef (setitemRef fs (copyRef fs s r).1 r a p).1
          (copyRef fs s r).2.1 = readRef s r) := by
  have hc : Aliases.copy fs (readRef s r) = (readRef s r, none) :=
    copy_of_WF fs (readRef s r) h2
  have hne : r ≠ s.next := Nat.ne_of_lt h1
  have hc2 : Aliases.copy fs (s.mem r) = (s.mem r, none) := hc
  refine ⟨?_, ?_, ?_, ?_⟩
  · simp [copyRef, hc]
  · simp [copyRef, hc, hc2, allocRef, readRef]
  · intro a p
    simp [copyRef, hc, hc2, allocRef, readRef, setitemRef, writeRef, hne]
  · intro a p
    simp [copyRef, hc, hc2, allocRef, readRef, setitemRef, writeRef, hne, Ne.symm hne]

/-- C8 witness: copying the object at reference 0 of the concrete store
succeeds and the copy holds the same bindings. -/
theorem copy_independent_witness :
    (0 < storeFix.next ∧ WF fsFix (readRef storeFix 0)) ∧
      ((copyRef fsFix storeFix 0).2.2 = none ∧
        readRef (copyRef fsFix storeFix 0).1 (copyRef fsFix storeFix 0).2.1 =
          readRef storeFix 0) :=
  ⟨⟨by decide, by decide⟩,
    (copy_independent fsFix storeFix 0 (by decide) (by decide)).1,
    (copy_independent fsFix storeFix 0 (by decide) (by decide)).2.1⟩

/-- C9: `count` realises the specified pipeline — per expression, home
expansion then wildcard expansion, one de-duplicated set of results,
filtered to existing entries, returning its size; a metacharacter-free
non-existent input contributes zero entries (and no error, `count` being
total), and duplicate expressions are counted once.  The hypothesis pins
the glob of a metacharacter-free expression to itself when it exists and
to nothing otherwise, as `glob.glob` behaves. -/
theorem count_matches_spec (fs : FS)
    (Hglob : ∀ s, noMeta s = true →
      fs.globFn s = if fs.pexists s then [s] else []) :
    (∀ items, count fs items = countSpec fs items) ∧
      (∀ q items,
        noMeta (if q.data.contains '~' then expanduser fs.home q else q) = true →
        fs.pexists (if q.data.contains '~' then expanduser fs.home q else q) = false →
        count fs (q :: items) = count fs items) ∧
      (∀ p items, count fs (p :: p :: items) = count fs (p :: items)) := by
  refine ⟨?_, ?_, ?_⟩
  · intro items
    rw [count_eq_card, countSpec_eq_card]
  · intro q items hm hp
    have hexp : expandAll fs (q :: items) = expandAll fs items := by
      rw [expandAll_cons, Hglob _ hm, hp]
      simp
    rw [count, count, hexp]
  · intro p items
    refine count_congr_mem fs _ _ ?_
    intro x
    rw [expandAll_cons, expandAll_cons]
    simp only [List.mem_append]
    tauto

/-- C9 witness: the code-side count and the specification-side count agree
on a concrete input containing a non-existent path and a duplicate. -/
theorem count_matches_spec_witness :
    count fsFix ([("/missing"), ("/e"), ("/e")]) =
      countSpec fsFix ([("/missing"), ("/e"), ("/e")]) :=
  (count_matches_spec fsFix (fun _ _ => rfl)).1 ([("/missing"), ("/e"), ("/e")])

/-- C10: when the alias is unbound, `setdefault` called without a path
forwards the default null path to `Insert`, which fails with
`InvalidPathError`; the table is left unchanged. -/
theorem setdefault_omitted_path_unbound (fs : FS) (t : Aliases) (a : String)
    (h : lookupA t a = none) :
    Aliases.setdefaultNoPath fs t a = .error (.invalidPath nonePathMsg) ∧
      Aliases.setdefaultRun fs t a none = (t, some (.invalidPath nonePathMsg)) := by
  have hg : Aliases.getitem t a = .error (.keyNotFound a) := by
    simp [Aliases.getitem, h]
  constructor
  · simp [Aliases.setdefaultNoPath, Aliases.setdefault, hg, Aliases.setitem]
  · simp [Aliases.setdefaultRun, Aliases.setdefault, hg, Aliases.setitem]

/-- C10 witness: `setdefault("x")` on the empty table fails with the
null-path `InvalidPathError` and the table stays empty. -/
theorem setdefault_omitted_path_unbound_witness :
    lookupA [] ("x") = none ∧
      Aliases.setdefaultNoPath fsFix [] ("x") =
        .error (.invalidPath nonePathMsg) ∧
      Aliases.setdefaultRun fsFix [] ("x") none =
        ([], some (.invalidPath nonePathMsg)) :=
  ⟨rfl,
    (setdefault_omitted_path_unbound fsFix [] ("x") rfl).1,
    (setdefault_omitted_path_unbound fsFix [] ("x") rfl).2⟩

end FSNav
